import Mathlib

/-!
Verification of the jwt-crud-api backend: a shallow embedding of the
product routes, the auth routes and the auth middleware, with theorems
about access control, soft delete, listing query construction and the
token service contract.

Source files embedded here: the product router and auth router
(routes file), the auth middleware (src/middlewares/auth.js), and the
Product schema defaults. External collaborators (MongoDB ordering,
the jsonwebtoken library, bcrypt hashing, the express-validator
serialized error array, full-text search) are represented as explicit
parameters or symbolic functions, as noted on each definition.
-/

namespace JwtCrudApi

/-- Application error carrying a message and an HTTP status code, as the
AppError class in src/utils/error. -/
structure AppError where
  message : String
  statusCode : Nat
deriving DecidableEq, Repr

/-- Error thrown when express-validator reports violations. The real
message is the JSON-serialized violation array; no claim inspects it, so
it is abstracted to a fixed marker string. The status 422 is from the
routes. -/
def validationError : AppError := { message := "ValidationError", statusCode := 422 }

/-- Error for a missing or inactive product, from the product routes. -/
def notFoundError : AppError := { message := "Produto não encontrado", statusCode := 404 }

/-- Error for a mutation attempted by a non-owner, from the product routes. -/
def forbiddenError : AppError := { message := "Sem permissão", statusCode := 403 }

/-- Error from the auth middleware when no bearer token is supplied. -/
def missingTokenError : AppError := { message := "Token não informado", statusCode := 401 }

/-- Error from the auth middleware when token verification fails. -/
def invalidTokenError : AppError := { message := "Token inválido ou expirado", statusCode := 401 }

/-- Error for a failed login, identical for unknown email and wrong
password, from the auth routes. -/
def invalidCredentialsError : AppError := { message := "Credenciais inválidas", statusCode := 401 }

/-- A stored product record, following the Product schema: name,
description, price, stock, active flag and owner reference. Identifiers
and the owner reference are strings, matching the string comparison
performed by the routes. Timestamps are not modelled; no claim depends
on their values. -/
structure Product where
  id : String
  name : String
  description : String
  price : Int
  stock : Int
  active : Bool
  owner : String
deriving DecidableEq, Repr

/-- Lookup by id in the product store, as Product.findById. -/
def findProductById (store : List Product) (pid : String) : Option Product :=
  store.find? (fun p => p.id = pid)

/-- Persisting a modified document in place, as product.save: the record
with the same id is replaced, nothing is added or removed. -/
def saveProduct (store : List Product) (p : Product) : List Product :=
  store.map (fun q => if q.id = p.id then p else q)

/-- Hex digit test used by the Mongo id validator. -/
def isHexDigit (c : Char) : Bool :=
  (("0".front ≤ c && c ≤ "9".front) || ("a".front ≤ c && c ≤ "f".front)
    || ("A".front ≤ c && c ≤ "F".front))

/-- The isMongoId check of express-validator: a 24 character hex string. -/
def isMongoId (s : String) : Bool :=
  s.length = 24 && s.toList.all isHexDigit

/-- Body of a PATCH request. Every key that can appear in the JSON body
is optional; the owner key is listed because the handler merges the whole
body into the document, so an owner key in the body is applied too. -/
structure PatchBody where
  name : Option String
  description : Option String
  price : Option Int
  stock : Option Int
  active : Option Bool
  owner : Option String
deriving DecidableEq, Repr

/-- The all-absent PATCH body. -/
def PatchBody.empty : PatchBody :=
  { name := none, description := none, price := none, stock := none,
    active := none, owner := none }

/-- Validators on the PATCH body: optional nonempty name, optional price
at least 0, optional stock at least 0, optional boolean active, optional
string description. The owner key has no validator, so it is not
checked. -/
def validatePatchBody (b : PatchBody) : Bool :=
  (match b.name with | none => true | some n => decide (n ≠ ""))
  && (match b.price with | none => true | some v => decide (0 ≤ v))
  && (match b.stock with | none => true | some v => decide (0 ≤ v))

/-- The merge step of the PATCH handler, Object.assign on the document:
every key present in the body overwrites the stored field, keys absent
from the body leave the field unchanged. -/
def applyPatch (p : Product) (b : PatchBody) : Product :=
  { p with
    name := b.name.getD p.name,
    description := b.description.getD p.description,
    price := b.price.getD p.price,
    stock := b.stock.getD p.stock,
    active := b.active.getD p.active,
    owner := b.owner.getD p.owner }

/-- The PATCH handler of the product router: validate, look the product
up, reject a missing or inactive product with 404, reject a non-owner
with 403, then merge the body and save. Returns the updated document and
the updated store. -/
def updateProduct (store : List Product) (actorId : String) (pid : String)
    (b : PatchBody) : Except AppError (Product × List Product) :=
  if ¬ (isMongoId pid && validatePatchBody b) = true then .error validationError
  else
    match findProductById store pid with
    | none => .error notFoundError
    | some p =>
      if p.active = false then .error notFoundError
      else if p.owner ≠ actorId then .error forbiddenError
      else
        let p2 := applyPatch p b
        .ok (p2, saveProduct store p2)

/-- The DELETE handler of the product router: validate the id, look the
product up, reject a missing or inactive product with 404, reject a
non-owner with 403, then set active to false and save (soft delete).
Returns the updated store; the response carries no content. -/
def deleteProduct (store : List Product) (actorId : String) (pid : String) :
    Except AppError (List Product) :=
  if ¬ isMongoId pid = true then .error validationError
  else
    match findProductById store pid with
    | none => .error notFoundError
    | some p =>
      if p.active = false then .error notFoundError
      else if p.owner ≠ actorId then .error forbiddenError
      else .ok (saveProduct store { p with active := false })

/-- Body of a POST request creating a product. -/
structure CreateBody where
  name : String
  description : Option String
  price : Int
  stock : Option Int
  owner : Option String
deriving DecidableEq, Repr

/-- Validators on the create body: nonempty name, price at least 0,
optional stock at least 0. -/
def validateCreateBody (b : CreateBody) : Bool :=
  decide (b.name ≠ "")
  && decide (0 ≤ b.price)
  && (match b.stock with | none => true | some v => decide (0 ≤ v))

/-- The POST handler of the product router: the document is built from
the named body fields only, owner is taken from the authenticated caller
and any owner value in the body is ignored; active defaults to true per
the schema. -/
def createProduct (actorId : String) (newId : String) (b : CreateBody) :
    Except AppError Product :=
  if ¬ validateCreateBody b = true then .error validationError
  else
    .ok { id := newId, name := b.name, description := b.description.getD "",
          price := b.price, stock := b.stock.getD 0, active := true,
          owner := actorId }

/-- The GET by id handler of the product router: a missing or inactive
product yields 404, otherwise the record is returned. -/
def getProductById (store : List Product) (pid : String) :
    Except AppError Product :=
  if ¬ isMongoId pid = true then .error validationError
  else
    match findProductById store pid with
    | none => .error notFoundError
    | some p => if p.active = false then .error notFoundError else .ok p

/-- Query parameters of the listing route, after the toInt sanitizer:
page and limit as integers when supplied, search and sort as strings
when supplied. -/
structure ListQuery where
  page : Option Int
  limit : Option Int
  search : Option String
  sort : Option String
deriving DecidableEq, Repr

/-- Validators on the listing query: optional page as integer at least 1,
optional limit as integer between 1 and 100; search and sort only need to
be strings, which they are by type. -/
def validateListQuery (q : ListQuery) : Bool :=
  (match q.page with | none => true | some p => decide (1 ≤ p))
  && (match q.limit with | none => true | some l => decide (1 ≤ l ∧ l ≤ 100))

/-- The Mongo filter built by the listing handler: active is always set
to true, and a text clause is added when a search string is supplied and
nonempty (the empty string is falsy in the source). -/
structure ProductFilter where
  active : Bool
  search : Option String
deriving DecidableEq, Repr

/-- Filter construction from the listing handler. -/
def buildFilter (q : ListQuery) : ProductFilter :=
  { active := true,
    search := match q.search with
      | none => none
      | some s => if s = "" then none else some s }

/-- Whether a document matches the filter. Equality on the active flag is
the Mongo match on the active clause; the text clause is delegated to the
database text index, abstracted as the textMatch parameter. -/
def matchesFilter (textMatch : String → Product → Bool) (f : ProductFilter)
    (p : Product) : Bool :=
  (p.active == f.active)
  && (match f.search with | none => true | some s => textMatch s p)

/-- The JavaScript startsWith test, written over the character list so
that it evaluates inside the kernel. -/
def strStartsWith (s pre : String) : Bool :=
  pre.toList.isPrefixOf s.toList

/-- Accumulator loop of the JavaScript split on a comma: empty segments
are kept, and the empty input yields one empty segment. -/
def splitCommaAux : List Char → List Char → List (List Char)
  | [], acc => [acc.reverse]
  | c :: cs, acc =>
    if c = ",".front then acc.reverse :: splitCommaAux cs []
    else splitCommaAux cs (c :: acc)

/-- The JavaScript split on a comma, written over the character list so
that it evaluates inside the kernel. -/
def splitComma (s : String) : List String :=
  (splitCommaAux s.toList []).map String.mk

/-- Assignment into a JavaScript object literal used as a sort
specification: an existing key is overwritten in place, a new key is
appended. -/
def jsAssign (m : List (String × Int)) (k : String) (v : Int) :
    List (String × Int) :=
  if m.any (fun e => e.1 = k) then
    m.map (fun e => if e.1 = k then (k, v) else e)
  else m ++ [(k, v)]

/-- The loop body of the sort construction: a token starting with a dash
maps its remainder to -1 (descending), any other token maps to 1
(ascending). -/
def sortStep (m : List (String × Int)) (f : String) : List (String × Int) :=
  if strStartsWith f "-" then jsAssign m (f.drop 1) (-1)
  else jsAssign m f 1

/-- The sort construction loop: the string is split on commas and each
token is assigned into the sort object. -/
def sortTokens (s : String) : List (String × Int) :=
  (splitComma s).foldl sortStep []

/-- Sort construction from the listing handler: the default is creation
time descending; the split rule runs only when the sort parameter is
supplied and nonempty, because the empty string is falsy in the source
condition. -/
def buildSort (sortQ : Option String) : List (String × Int) :=
  match sortQ with
  | none => [("createdAt", -1)]
  | some s => if s = "" then [("createdAt", -1)] else sortTokens s

/-- The field a token contributes, as the specification words it: a
token with a leading dash contributes the field name without the dash,
every other token contributes the token itself. -/
def specTokenField (t : String) : String :=
  if strStartsWith t "-" then t.drop 1 else t

/-- The direction a token contributes, as the specification words it:
descending (-1) for a leading dash, ascending (1) otherwise. -/
def specTokenDirection (t : String) : Int :=
  if strStartsWith t "-" then -1 else 1

/-- The GET listing handler: validate, default page to 1 and limit to 10,
compute skip, build the filter, then ask the database for the filtered
documents in its sort order with skip and limit applied, together with
the total count of filtered documents. The database ordering step is
abstracted as the order parameter; theorems assume only that it returns
elements of its input. Returns page, limit, total and the items. -/
def listProducts (textMatch : String → Product → Bool)
    (order : List Product → List Product)
    (store : List Product) (q : ListQuery) :
    Except AppError (Int × Int × Nat × List Product) :=
  if ¬ validateListQuery q = true then .error validationError
  else
    let page := q.page.getD 1
    let limit := q.limit.getD 10
    let skip := (page - 1) * limit
    let f := buildFilter q
    let matched := store.filter (matchesFilter textMatch f)
    let items := ((order matched).drop skip.toNat).take limit.toNat
    .ok (page, limit, matched.length, items)

/-- Claim of a JWT: subject, email and expiry time, in seconds. -/
structure JwtPayload where
  sub : String
  email : String
  exp : Nat
deriving DecidableEq, Repr

/-- Modelled from the spec: the jsonwebtoken library is an external
collaborator, so its HMAC signature is modelled symbolically as a
message authentication code that is correct and unforgeable by
construction: the tag determines the secret and the payload. -/
def hmacTag (secret : String) (p : JwtPayload) : String × JwtPayload :=
  (secret, p)

/-- A signed token: a payload together with its tag. -/
structure SignedToken where
  payload : JwtPayload
  tag : String × JwtPayload
deriving DecidableEq, Repr

/-- Modelled from the spec: jwt.sign as called by the auth routes, with
the email claim, the subject set to the user id, and the configured
expiry duration added to the issue time. -/
def jwtSign (secret : String) (userId : String) (email : String)
    (issuedAt : Nat) (expiresInSecs : Nat) : SignedToken :=
  let p : JwtPayload := { sub := userId, email := email,
                          exp := issuedAt + expiresInSecs }
  { payload := p, tag := hmacTag secret p }

/-- Modelled from the spec: jwt.verify checks the tag against the secret
and the payload and rejects an expired token; on success it returns the
payload. -/
def jwtVerify (secret : String) (now : Nat) (t : SignedToken) :
    Option JwtPayload :=
  if t.tag ≠ hmacTag secret t.payload then none
  else if t.payload.exp ≤ now then none
  else some t.payload

/-- The identity the auth middleware attaches to the request: id from the
subject claim, email from the email claim. -/
structure AuthedUser where
  id : String
  email : String
deriving DecidableEq, Repr

/-- The auth middleware over an abstract token verifier: the header is
defaulted to the empty string, a token is extracted only when the header
starts with the exact text Bearer followed by one space, a missing or
empty token yields the missing-token error, and a failed verification
yields the invalid-token error. -/
def auth (verifyTok : String → Option AuthedUser) (header : Option String) :
    Except AppError AuthedUser :=
  let h := header.getD ""
  let token : Option String :=
    if strStartsWith h "Bearer " then some (h.drop 7) else none
  match token with
  | none => .error missingTokenError
  | some t =>
    if t = "" then .error missingTokenError
    else
      match verifyTok t with
      | some u => .ok u
      | none => .error invalidTokenError

/-- The auth middleware composed with the symbolic token verification:
the try block maps a verified payload to the request identity, the catch
block maps any verification failure to the invalid-token error. -/
def authVerifyToken (secret : String) (now : Nat) (t : SignedToken) :
    Except AppError AuthedUser :=
  match jwtVerify secret now t with
  | some p => .ok { id := p.sub, email := p.email }
  | none => .error invalidTokenError

/-- A stored user record. The password is stored only as a hash, per the
User schema described by the spec. -/
structure User where
  id : String
  name : String
  email : String
  passwordHash : String
deriving DecidableEq, Repr

/-- Modelled from the spec: the User model file is not among the sources;
the salted bcrypt hash is modelled as an abstract injective function of
the password. -/
def hashPassword (pw : String) : String :=
  "hashed:" ++ pw

/-- Modelled from the spec: user.comparePassword checks the candidate
password against the stored hash. -/
def comparePassword (u : User) (pw : String) : Bool :=
  u.passwordHash == hashPassword pw

/-- Lookup by email, as User.findOne on the email key. -/
def findUserByEmail (users : List User) (email : String) : Option User :=
  users.find? (fun u => u.email = email)

/-- The login handler of the auth routes: validate the body (email format
is delegated to the external isEmail validator, abstracted as the
emailFormatOk parameter; password must be nonempty), look the user up by
email, reject an unknown email and a failed password comparison with the
same invalid-credentials error, and on success return the public user
fields and a fresh token. -/
def login (emailFormatOk : String → Bool) (secret : String)
    (issuedAt : Nat) (expiresInSecs : Nat) (users : List User)
    (email : String) (password : String) :
    Except AppError ((String × String × String) × SignedToken) :=
  if ¬ (emailFormatOk email && decide (password ≠ "")) = true then
    .error validationError
  else
    match findUserByEmail users email with
    | none => .error invalidCredentialsError
    | some u =>
      if comparePassword u password = false then .error invalidCredentialsError
      else .ok ((u.id, u.name, u.email), jwtSign secret u.id u.email issuedAt expiresInSecs)

/-! Sample records used by closed witness statements. -/

/-- A well-formed Mongo id used as a product id in witnesses. -/
def hexA : String := "aaaaaaaaaaaaaaaaaaaaaaaa"

/-- A well-formed Mongo id used as the owner id in witnesses. -/
def hexB : String := "bbbbbbbbbbbbbbbbbbbbbbbb"

/-- A well-formed Mongo id used as a second user id in witnesses. -/
def hexC : String := "cccccccccccccccccccccccc"

/-- A sample active product owned by the user with id hexB. -/
def sampleProduct : Product :=
  { id := hexA, name := "Teclado", description := "Mecanico", price := 199,
    stock := 10, active := true, owner := hexB }

/-- A sample registered user whose password is 123456. -/
def sampleUser : User :=
  { id := hexB, name := "Lucas", email := "lucas@mail.com",
    passwordHash := hashPassword "123456" }

/-! Characterization lemmas shared by several theorems. -/

theorem updateProduct_unfold (store : List Product) (a pid : String)
    (b : PatchBody) (hid : isMongoId pid = true)
    (hb : validatePatchBody b = true) :
    updateProduct store a pid b =
      match findProductById store pid with
      | none => .error notFoundError
      | some p =>
        if p.active = false then .error notFoundError
        else if p.owner ≠ a then .error forbiddenError
        else .ok (applyPatch p b, saveProduct store (applyPatch p b)) := by
  simp [updateProduct, hid, hb]

theorem deleteProduct_unfold (store : List Product) (a pid : String)
    (hid : isMongoId pid = true) :
    deleteProduct store a pid =
      match findProductById store pid with
      | none => .error notFoundError
      | some p =>
        if p.active = false then .error notFoundError
        else if p.owner ≠ a then .error forbiddenError
        else .ok (saveProduct store { p with active := false }) := by
  simp [deleteProduct, hid]

theorem notFoundError_ne_forbiddenError : notFoundError ≠ forbiddenError := by
  decide

/-- C1: for the update and the delete operation, the existence and active
check precedes the ownership check: a missing or inactive product yields
the 404 not-found error for every actor, and the 403 forbidden error
occurs exactly when the product exists, is active, and its owner id
differs from the actor id as strings. -/
theorem c1_existence_check_precedes_ownership
    (store : List Product) (actorId pid : String) (b : PatchBody)
    (hid : isMongoId pid = true) (hb : validatePatchBody b = true) :
    ((findProductById store pid = none ∨
        ∃ p, findProductById store pid = some p ∧ p.active = false) →
      updateProduct store actorId pid b = .error notFoundError ∧
        deleteProduct store actorId pid = .error notFoundError) ∧
    (∀ p, findProductById store pid = some p → p.active = true →
        p.owner ≠ actorId →
      updateProduct store actorId pid b = .error forbiddenError ∧
        deleteProduct store actorId pid = .error forbiddenError) ∧
    ((updateProduct store actorId pid b = .error forbiddenError ∨
        deleteProduct store actorId pid = .error forbiddenError) →
      ∃ p, findProductById store pid = some p ∧ p.active = true ∧
        p.owner ≠ actorId) := by
  rw [updateProduct_unfold store actorId pid b hid hb,
      deleteProduct_unfold store actorId pid hid]
  rcases hfind : findProductById store pid with _ | p
  · simp [hfind, notFoundError, forbiddenError]
  · by_cases ha : p.active = false
    · simp [hfind, ha, notFoundError, forbiddenError]
    · have ha2 : p.active = true := by
        revert ha; cases p.active <;> simp
      by_cases ho : p.owner = actorId
      · simp [hfind, ha, ha2, ho, notFoundError, forbiddenError]
      · simp [hfind, ha, ha2, ho]

/-- Witness for C1 at concrete inputs: a non-owner on an active product
receives 403, a non-owner (and the owner) on a deleted product receives
404. -/
theorem c1_witness :
    (updateProduct [sampleProduct] hexC hexA PatchBody.empty =
        .error forbiddenError ∧
      deleteProduct [sampleProduct] hexC hexA = .error forbiddenError) ∧
    (updateProduct [{ sampleProduct with active := false }] hexC hexA
        PatchBody.empty = .error notFoundError ∧
      deleteProduct [{ sampleProduct with active := false }] hexC hexA =
        .error notFoundError) := by
  constructor
  · exact (c1_existence_check_precedes_ownership [sampleProduct] hexC hexA
      PatchBody.empty (by decide) (by decide)).2.1 sampleProduct (by decide)
      (by decide) (by decide)
  · exact (c1_existence_check_precedes_ownership
      [{ sampleProduct with active := false }] hexC hexA PatchBody.empty
      (by decide) (by decide)).1
      (Or.inr ⟨{ sampleProduct with active := false }, by decide, by decide⟩)

/-- C2 evaluated at its failing input: the create handler ignores a
client-supplied owner and stores the caller id, but the update handler
merges the whole request body into the document, so an authorized PATCH
whose body carries an owner key overwrites the stored owner: the owner
field after the update differs from the owner field before it. -/
theorem c2_owner_changed_by_mass_assignment :
    createProduct hexB hexA
        { name := "Teclado", description := none, price := 199,
          stock := none, owner := some hexC } =
      .ok { id := hexA, name := "Teclado", description := "", price := 199,
            stock := 0, active := true, owner := hexB } ∧
    validatePatchBody { PatchBody.empty with owner := some hexC } = true ∧
    updateProduct [sampleProduct] hexB hexA
        { PatchBody.empty with owner := some hexC } =
      .ok ({ sampleProduct with owner := hexC },
           [{ sampleProduct with owner := hexC }]) ∧
    ({ sampleProduct with owner := hexC } : Product).owner ≠
      sampleProduct.owner :=
  ⟨rfl, by decide, rfl, by decide⟩

/-- C3 counterexample: an authorized update cannot reactivate a product:
with the owner as actor and a body setting active to true, the update of
an inactive product fails with the 404 not-found error instead of
succeeding. -/
theorem c3_reactivation_counterexample :
    updateProduct [{ sampleProduct with active := false }] hexB hexA
        { PatchBody.empty with active := some true } =
      .error notFoundError ∧
    notFoundError.statusCode = 404 :=
  ⟨rfl, rfl⟩

/-- C3 amended: on an existing active product, the owner may set the
active field directly to any boolean through an authorized partial
update, in particular to false; an inactive product cannot be updated at
all, so reactivation through the update path is impossible. -/
theorem c3_active_client_settable_on_active_products
    (store : List Product) (pid : String) (p : Product) (b : PatchBody)
    (hid : isMongoId pid = true) (hb : validatePatchBody b = true)
    (hfind : findProductById store pid = some p) :
    (p.active = true →
      updateProduct store p.owner pid b =
        .ok (applyPatch p b, saveProduct store (applyPatch p b)) ∧
      (applyPatch p b).active = b.active.getD p.active) ∧
    (p.active = false →
      updateProduct store p.owner pid b = .error notFoundError) := by
  rw [updateProduct_unfold store p.owner pid b hid hb]
  constructor
  · intro ha
    have ha2 : (p.active = false) = False := by simp [ha]
    simp [hfind, ha2, applyPatch]
  · intro ha
    simp [hfind, ha]

/-- Witness for C3 amended: the owner sets active to false through the
update path on an active product, and the update of the now inactive
product fails with 404. -/
theorem c3_witness :
    updateProduct [sampleProduct] hexB hexA
        { PatchBody.empty with active := some false } =
      .ok ({ sampleProduct with active := false },
           [{ sampleProduct with active := false }]) ∧
    updateProduct [{ sampleProduct with active := false }] hexB hexA
        PatchBody.empty = .error notFoundError := by
  constructor
  · have h := (c3_active_client_settable_on_active_products [sampleProduct]
      hexA sampleProduct { PatchBody.empty with active := some false }
      (by decide) (by decide) (by decide)).1 (by decide)
    exact h.1.trans (by rfl)
  · exact (c3_active_client_settable_on_active_products
      [{ sampleProduct with active := false }] hexA
      { sampleProduct with active := false } PatchBody.empty
      (by decide) (by decide) (by decide)).2 (by decide)

theorem findProductById_id (store : List Product) (pid : String)
    (p : Product) (h : findProductById store pid = some p) : p.id = pid := by
  have := List.find?_some h
  simpa using this

theorem findProductById_saveProduct (store : List Product) (pid : String)
    (p p2 : Product) (hid2 : p2.id = p.id) :
    findProductById store pid = some p →
    findProductById (saveProduct store p2) pid = some p2 := by
  induction store with
  | nil => intro h; simp [findProductById] at h
  | cons q t ih =>
    intro hfind
    have hpid : p.id = pid := findProductById_id _ _ _ hfind
    by_cases hq : q.id = pid
    · have hqp : q = p := by
        have h2 := hfind
        simp only [findProductById] at h2
        rw [List.find?_cons_of_pos _ (by simpa using hq)] at h2
        exact Option.some.inj h2
      subst hqp
      simp only [saveProduct, List.map_cons, findProductById]
      rw [if_pos hid2.symm]
      rw [List.find?_cons_of_pos _ (by simp [hid2, hpid])]
    · have hfind2 : findProductById t pid = some p := by
        have h2 := hfind
        simp only [findProductById] at h2 ⊢
        rwa [List.find?_cons_of_neg _ (by simpa using hq)] at h2
      have hqne : q.id ≠ p2.id := fun hcon => hq (hcon.trans (hid2.trans hpid))
      simp only [saveProduct, List.map_cons, findProductById]
      rw [if_neg hqne, List.find?_cons_of_neg _ (by simpa using hq)]
      have h3 := ih hfind2
      simpa [findProductById, saveProduct] using h3

/-- C5: the delete operation, authorized on an active product owned by
the actor, succeeds by saving the record with active set to false; the
record is retained (still found by id, store length unchanged); a second
delete of the now inactive product fails with the 404 not-found error. -/
theorem c5_soft_delete_then_not_found (store : List Product)
    (actorId pid : String) (p : Product) (hid : isMongoId pid = true)
    (hfind : findProductById store pid = some p)
    (hact : p.active = true) (hown : p.owner = actorId) :
    deleteProduct store actorId pid =
      .ok (saveProduct store { p with active := false }) ∧
    findProductById (saveProduct store { p with active := false }) pid =
      some { p with active := false } ∧
    (saveProduct store { p with active := false }).length = store.length ∧
    deleteProduct (saveProduct store { p with active := false }) actorId pid =
      .error notFoundError := by
  have hfind2 := findProductById_saveProduct store pid p
    { p with active := false } rfl hfind
  refine ⟨?_, hfind2, ?_, ?_⟩
  · rw [deleteProduct_unfold store actorId pid hid]
    simp [hfind, hact, hown]
  · simp [saveProduct]
  · rw [deleteProduct_unfold _ actorId pid hid]
    simp [hfind2]

/-- Witness for C5: the owner deletes the sample product; the store keeps
the record with active false; a second delete yields 404. -/
theorem c5_witness :
    deleteProduct [sampleProduct] hexB hexA =
      .ok [{ sampleProduct with active := false }] ∧
    deleteProduct [{ sampleProduct with active := false }] hexB hexA =
      .error notFoundError := by
  have h := c5_soft_delete_then_not_found [sampleProduct] hexB hexA
    sampleProduct (by decide) (by decide) (by decide) (by decide)
  exact ⟨h.1.trans (by rfl), (by rfl : saveProduct [sampleProduct]
    { sampleProduct with active := false } =
    [{ sampleProduct with active := false }]) ▸ h.2.2.2⟩

theorem getProductById_unfold (store : List Product) (pid : String)
    (hid : isMongoId pid = true) :
    getProductById store pid =
      match findProductById store pid with
      | none => .error notFoundError
      | some p =>
        if p.active = false then .error notFoundError else .ok p := by
  simp [getProductById, hid]

/-- C4: inactive products are unobservable through the read paths: the
listing filter fixes active to true and every listed item is active, for
any database ordering that returns elements of its input; lookup by id
returns a product exactly when it is stored and active, and fails with
the 404 not-found error when the product is missing or inactive. -/
theorem c4_inactive_products_unobservable
    (textMatch : String → Product → Bool)
    (order : List Product → List Product) (store : List Product)
    (q : ListQuery) (horder : ∀ l x, x ∈ order l → x ∈ l) :
    (∀ page limit total items,
      listProducts textMatch order store q = .ok (page, limit, total, items) →
      (buildFilter q).active = true ∧ ∀ x ∈ items, x.active = true) ∧
    (∀ pid p, isMongoId pid = true →
      (getProductById store pid = .ok p ↔
        findProductById store pid = some p ∧ p.active = true)) ∧
    (∀ pid p, isMongoId pid = true → findProductById store pid = some p →
      p.active = false → getProductById store pid = .error notFoundError) ∧
    (∀ pid, isMongoId pid = true → findProductById store pid = none →
      getProductById store pid = .error notFoundError) := by
  refine ⟨?_, ?_, ?_, ?_⟩
  · intro page limit total items h
    by_cases hval : validateListQuery q = true
    · simp only [listProducts, hval] at h
      rw [if_neg (by simp)] at h
      have hitems : items =
          ((order (store.filter (matchesFilter textMatch (buildFilter q)))).drop
            (((q.page.getD 1 - 1) * q.limit.getD 10).toNat)).take
            (q.limit.getD 10).toNat := by
        have := (Except.ok.inj h)
        exact (congrArg (fun z => z.2.2.2) this).symm
      refine ⟨by simp [buildFilter], ?_⟩
      intro x hx
      rw [hitems] at hx
      have hx1 : x ∈ order (store.filter (matchesFilter textMatch (buildFilter q))) :=
        (List.drop_sublist _ _).mem ((List.take_sublist _ _).mem hx)
      have hx2 := horder _ _ hx1
      have hx3 := (List.mem_filter.1 hx2).2
      simp only [matchesFilter, buildFilter, Bool.and_eq_true, beq_iff_eq] at hx3
      exact hx3.1
    · simp [listProducts, hval] at h
  · intro pid p hid
    rw [getProductById_unfold store pid hid]
    constructor
    · intro h
      rcases hfind : findProductById store pid with _ | r
      · simp [hfind] at h
      · simp only [hfind] at h
        by_cases hr : r.active = false
        · simp [hr] at h
        · rw [if_neg (by simp [hr])] at h
          have hrp : r = p := Except.ok.inj h
          have hra : r.active = true := by revert hr; cases r.active <;> simp
          refine ⟨?_, ?_⟩
          · rw [hrp]
          · rw [← hrp]; exact hra
    · rintro ⟨hfind, ha⟩
      simp [hfind, ha]
  · intro pid p hid hfind ha
    rw [getProductById_unfold store pid hid]
    simp [hfind, ha]
  · intro pid hid hfind
    rw [getProductById_unfold store pid hid]
    simp [hfind]

/-- Witness for C4: on a store holding one active and one inactive
product, the default listing returns exactly the active one, and lookup
of the inactive one fails with 404. -/
theorem c4_witness :
    (∀ x ∈ [sampleProduct], x.active = true) ∧
    getProductById [{ sampleProduct with active := false }] hexA =
      .error notFoundError := by
  constructor
  · exact ((c4_inactive_products_unobservable (fun _ _ => true) id
      [sampleProduct, { sampleProduct with id := hexC, active := false }]
      { page := none, limit := none, search := none, sort := none }
      (fun _ _ hx => hx)).1 1 10 1 [sampleProduct] (by rfl)).2
  · exact (c4_inactive_products_unobservable (fun _ _ => true) id
      [{ sampleProduct with active := false }]
      { page := none, limit := none, search := none, sort := none }
      (fun _ _ hx => hx)).2.2.1 hexA { sampleProduct with active := false }
      (by decide) (by decide) (by decide)

/-- C8: pagination of the listing: a supplied page below 1 or a supplied
limit outside 1..100 fails with the 422 validation error; on valid
parameters the response carries page defaulted to 1 and limit defaulted
to 10, the item slice starts at skip = (page - 1) * limit, and at most
limit items are returned. -/
theorem c8_listing_pagination (textMatch : String → Product → Bool)
    (order : List Product → List Product) (store : List Product)
    (q : ListQuery) :
    (((∃ pg, q.page = some pg ∧ pg < 1) ∨
        (∃ l, q.limit = some l ∧ (l < 1 ∨ 100 < l))) →
      listProducts textMatch order store q = .error validationError) ∧
    (validateListQuery q = true →
      listProducts textMatch order store q =
        .ok (q.page.getD 1, q.limit.getD 10,
          (store.filter (matchesFilter textMatch (buildFilter q))).length,
          ((order (store.filter (matchesFilter textMatch (buildFilter q)))).drop
              (((q.page.getD 1 - 1) * q.limit.getD 10).toNat)).take
            (q.limit.getD 10).toNat) ∧
      ∀ page limit total items,
        listProducts textMatch order store q = .ok (page, limit, total, items) →
        items.length ≤ (q.limit.getD 10).toNat) := by
  constructor
  · intro h
    have hval : validateListQuery q = false := by
      rcases h with ⟨pg, hpg, hlt⟩ | ⟨l, hl, hor⟩
      · have hn : ¬ (1 ≤ pg) := by omega
        simp [validateListQuery, hpg, hn]
      · have hn : ¬ (1 ≤ l ∧ l ≤ 100) := by omega
        simp [validateListQuery, hl, hn]
    simp [listProducts, hval]
  · intro hval
    constructor
    · simp [listProducts, hval]
    · intro page limit total items h
      simp only [listProducts, hval] at h
      rw [if_neg (by simp)] at h
      have hitems : items =
          ((order (store.filter (matchesFilter textMatch (buildFilter q)))).drop
            (((q.page.getD 1 - 1) * q.limit.getD 10).toNat)).take
            (q.limit.getD 10).toNat :=
        (congrArg (fun z => z.2.2.2) (Except.ok.inj h)).symm
      rw [hitems]
      exact List.length_take_le _ _

/-- Witness for C8: page 0 is rejected with 422; the default listing of a
one-product store returns page 1, limit 10, total 1 and the single item. -/
theorem c8_witness :
    listProducts (fun _ _ => true) id [sampleProduct]
      { page := some 0, limit := none, search := none, sort := none } =
      .error validationError ∧
    listProducts (fun _ _ => true) id [sampleProduct]
      { page := none, limit := none, search := none, sort := none } =
      .ok (1, 10, 1, [sampleProduct]) := by
  constructor
  · exact (c8_listing_pagination (fun _ _ => true) id [sampleProduct]
      { page := some 0, limit := none, search := none, sort := none }).1
      (Or.inl ⟨0, rfl, by omega⟩)
  · exact ((c8_listing_pagination (fun _ _ => true) id [sampleProduct]
      { page := none, limit := none, search := none, sort := none }).2
      (by decide)).1.trans (by rfl)

theorem mem_jsAssign (m : List (String × Int)) (k : String) (v : Int)
    (x : String × Int) (hx : x ∈ jsAssign m k v) : x = (k, v) ∨ x ∈ m := by
  unfold jsAssign at hx
  split at hx
  · rcases List.mem_map.1 hx with ⟨y, hy, hxy⟩
    by_cases h : y.1 = k
    · rw [if_pos h] at hxy
      exact Or.inl hxy.symm
    · rw [if_neg h] at hxy
      exact Or.inr (hxy ▸ hy)
  · rcases List.mem_append.1 hx with h | h
    · exact Or.inr h
    · exact Or.inl (List.mem_singleton.1 h)

theorem key_mem_jsAssign (m : List (String × Int)) (k : String) (v : Int) :
    k ∈ (jsAssign m k v).map Prod.fst := by
  unfold jsAssign
  split
  · rename_i h
    rcases List.any_eq_true.1 h with ⟨e, he, hek⟩
    refine List.mem_map.2 ⟨(k, v), ?_, rfl⟩
    refine List.mem_map.2 ⟨e, he, ?_⟩
    rw [if_pos (by simpa using hek)]
  · simp

theorem keys_mono_jsAssign (m : List (String × Int)) (k : String) (v : Int)
    (f : String) (hf : f ∈ m.map Prod.fst) :
    f ∈ (jsAssign m k v).map Prod.fst := by
  unfold jsAssign
  split
  · rcases List.mem_map.1 hf with ⟨y, hy, hfy⟩
    refine List.mem_map.2 ⟨if y.1 = k then (k, v) else y, List.mem_map.2 ⟨y, hy, rfl⟩, ?_⟩
    by_cases h : y.1 = k
    · rw [if_pos h]
      rw [← hfy, h]
    · rw [if_neg h, hfy]
  · rw [List.map_append]
    exact List.mem_append.2 (Or.inl hf)

theorem mem_sortStep (m : List (String × Int)) (t : String)
    (x : String × Int) (hx : x ∈ sortStep m t) :
    x ∈ m ∨ (x.1 = specTokenField t ∧ x.2 = specTokenDirection t) := by
  unfold sortStep at hx
  split at hx
  · rename_i h
    rcases mem_jsAssign _ _ _ _ hx with h2 | h2
    · exact Or.inr (by simp [h2, specTokenField, specTokenDirection, h])
    · exact Or.inl h2
  · rename_i h
    rcases mem_jsAssign _ _ _ _ hx with h2 | h2
    · exact Or.inr (by simp [h2, specTokenField, specTokenDirection, h])
    · exact Or.inl h2

theorem key_mem_sortStep (m : List (String × Int)) (t : String) :
    specTokenField t ∈ (sortStep m t).map Prod.fst := by
  unfold sortStep specTokenField
  split
  · exact key_mem_jsAssign m (t.drop 1) (-1)
  · exact key_mem_jsAssign m t 1

theorem keys_mono_sortStep (m : List (String × Int)) (t : String)
    (f : String) (hf : f ∈ m.map Prod.fst) :
    f ∈ (sortStep m t).map Prod.fst := by
  unfold sortStep
  split
  · exact keys_mono_jsAssign _ _ _ _ hf
  · exact keys_mono_jsAssign _ _ _ _ hf

theorem mem_foldl_sortStep (ts : List String) (m : List (String × Int))
    (x : String × Int) (hx : x ∈ ts.foldl sortStep m) :
    x ∈ m ∨ ∃ t ∈ ts, x.1 = specTokenField t ∧ x.2 = specTokenDirection t := by
  induction ts generalizing m with
  | nil => exact Or.inl hx
  | cons a as ih =>
    rw [List.foldl_cons] at hx
    rcases ih (sortStep m a) hx with h | h
    · rcases mem_sortStep _ _ _ h with h2 | h2
      · exact Or.inl h2
      · exact Or.inr ⟨a, List.mem_cons_self a as, h2⟩
    · rcases h with ⟨t, ht, h2⟩
      exact Or.inr ⟨t, List.mem_cons_of_mem a ht, h2⟩

theorem keys_mono_foldl_sortStep (ts : List String) (m : List (String × Int))
    (f : String) (hf : f ∈ m.map Prod.fst) :
    f ∈ (ts.foldl sortStep m).map Prod.fst := by
  induction ts generalizing m with
  | nil => exact hf
  | cons a as ih =>
    rw [List.foldl_cons]
    exact ih (sortStep m a) (keys_mono_sortStep m a f hf)

theorem key_mem_foldl_sortStep (ts : List String) (m : List (String × Int))
    (t : String) (ht : t ∈ ts) :
    specTokenField t ∈ (ts.foldl sortStep m).map Prod.fst := by
  induction ts generalizing m with
  | nil => cases ht
  | cons a as ih =>
    rw [List.foldl_cons]
    rcases List.mem_cons.1 ht with rfl | h
    · exact keys_mono_foldl_sortStep as (sortStep m t) _ (key_mem_sortStep m t)
    · exact ih (sortStep m a) h

/-- C9 counterexample: the claim applies the split rule to every supplied
sort parameter, so for the empty string it predicts the single token
(the empty field, ascending); the code instead treats the empty string
as unsupplied and sorts by creation time descending. -/
theorem c9_empty_sort_counterexample :
    splitComma "" = [""] ∧
    specTokenField "" = "" ∧ specTokenDirection "" = 1 ∧
    buildSort (some "") = [("createdAt", -1)] ∧
    ("", 1) ∉ buildSort (some "") := by
  refine ⟨by decide, by decide, by decide, by decide, by decide⟩

/-- C9 amended: for every nonempty sort parameter the string is split on
commas and each token contributes its field (a leading dash stripped)
mapped to descending for a dash token and ascending otherwise: every
entry of the built sort comes from some token, and the field of every
token appears among the keys; when the parameter is absent or the empty
string, the sort is by creation time descending. -/
theorem c9_sort_construction (s : String) (hs : s ≠ "") :
    buildSort (some s) = sortTokens s ∧
    (∀ x ∈ sortTokens s, ∃ t ∈ splitComma s,
      x.1 = specTokenField t ∧ x.2 = specTokenDirection t) ∧
    (∀ t ∈ splitComma s, specTokenField t ∈ (sortTokens s).map Prod.fst) ∧
    buildSort none = [("createdAt", -1)] ∧
    buildSort (some "") = [("createdAt", -1)] := by
  refine ⟨by simp [buildSort, hs], ?_, ?_, rfl, rfl⟩
  · intro x hx
    rcases mem_foldl_sortStep _ _ _ hx with h | h
    · cases h
    · exact h
  · intro t ht
    exact key_mem_foldl_sortStep _ _ _ ht

/-- Witness for C9 amended: a concrete two-token parameter with one
ascending and one descending token. -/
theorem c9_witness :
    buildSort (some "price,-createdAt") = sortTokens "price,-createdAt" ∧
    buildSort (some "price,-createdAt") = [("price", 1), ("createdAt", -1)] :=
  ⟨(c9_sort_construction "price,-createdAt" (by decide)).1,
   ((c9_sort_construction "price,-createdAt" (by decide)).1).trans (by decide)⟩

/-- C6: token round trip: a token signed with the configured secret for a
user id and email verifies under the same secret before its expiry and
yields the same subject and email; a token whose payload or whose tag
was altered is rejected, a token past its expiry is rejected, and any
rejection surfaces as the 401 unauthenticated error. -/
theorem c6_token_round_trip (secret userId email : String)
    (issuedAt dur now : Nat) :
    (now < issuedAt + dur →
      authVerifyToken secret now (jwtSign secret userId email issuedAt dur) =
        .ok { id := userId, email := email }) ∧
    (∀ p2 : JwtPayload,
      p2 ≠ (jwtSign secret userId email issuedAt dur).payload →
      authVerifyToken secret now
        { payload := p2,
          tag := (jwtSign secret userId email issuedAt dur).tag } =
        .error invalidTokenError) ∧
    (∀ tag2 : String × JwtPayload,
      tag2 ≠ hmacTag secret (jwtSign secret userId email issuedAt dur).payload →
      authVerifyToken secret now
        { payload := (jwtSign secret userId email issuedAt dur).payload,
          tag := tag2 } =
        .error invalidTokenError) ∧
    (issuedAt + dur ≤ now →
      authVerifyToken secret now (jwtSign secret userId email issuedAt dur) =
        .error invalidTokenError) ∧
    invalidTokenError.statusCode = 401 := by
  refine ⟨?_, ?_, ?_, ?_, rfl⟩
  · intro h
    have hn : ¬ (issuedAt + dur ≤ now) := Nat.not_le.2 h
    simp [authVerifyToken, jwtVerify, jwtSign, hmacTag, hn]
  · intro p2 hp2
    have hne : ((secret,
        (jwtSign secret userId email issuedAt dur).payload) :
        String × JwtPayload) ≠ (secret, p2) := by
      intro hcon
      exact hp2 (congrArg Prod.snd hcon).symm
    simp only [authVerifyToken, jwtVerify, jwtSign, hmacTag] at hne ⊢
    rw [if_pos (by simpa using hne)]
  · intro tag2 htag
    simp only [authVerifyToken, jwtVerify] at htag ⊢
    rw [if_pos (by simpa [jwtSign, hmacTag] using htag)]
  · intro h
    simp [authVerifyToken, jwtVerify, jwtSign, hmacTag, h]

/-- Witness for C6: a concrete round trip before expiry, a rejection at
expiry, and a rejection of a token whose subject claim was altered. -/
theorem c6_witness :
    authVerifyToken "s3cret" 5 (jwtSign "s3cret" "u1" "a@b.c" 0 10) =
      .ok { id := "u1", email := "a@b.c" } ∧
    authVerifyToken "s3cret" 10 (jwtSign "s3cret" "u1" "a@b.c" 0 10) =
      .error invalidTokenError ∧
    authVerifyToken "s3cret" 5
      { payload := { sub := "u2", email := "a@b.c", exp := 10 },
        tag := (jwtSign "s3cret" "u1" "a@b.c" 0 10).tag } =
      .error invalidTokenError := by
  refine ⟨?_, ?_, ?_⟩
  · exact (c6_token_round_trip "s3cret" "u1" "a@b.c" 0 10 5).1 (by decide)
  · exact (c6_token_round_trip "s3cret" "u1" "a@b.c" 0 10 10).2.2.2.1
      (by decide)
  · exact (c6_token_round_trip "s3cret" "u1" "a@b.c" 0 10 5).2.1
      { sub := "u2", email := "a@b.c", exp := 10 } (by decide)

/-- C7: login with an unknown email and login with a known email but a
failing password comparison produce the same observable error: the same
invalid-credentials message with status 401, so the two runs are
indistinguishable to the caller. -/
theorem c7_uniform_invalid_credentials
    (fmt : String → Bool) (secret : String) (issuedAt dur : Nat)
    (users : List User) (e1 p1 e2 p2 : String) (u : User)
    (hf1 : fmt e1 = true) (hp1 : p1 ≠ "")
    (hf2 : fmt e2 = true) (hp2 : p2 ≠ "")
    (h1 : findUserByEmail users e1 = none)
    (h2 : findUserByEmail users e2 = some u)
    (h3 : comparePassword u p2 = false) :
    login fmt secret issuedAt dur users e1 p1 =
      .error invalidCredentialsError ∧
    login fmt secret issuedAt dur users e2 p2 =
      .error invalidCredentialsError ∧
    login fmt secret issuedAt dur users e1 p1 =
      login fmt secret issuedAt dur users e2 p2 ∧
    invalidCredentialsError.statusCode = 401 := by
  have ha : login fmt secret issuedAt dur users e1 p1 =
      .error invalidCredentialsError := by
    simp [login, hf1, hp1, h1]
  have hb : login fmt secret issuedAt dur users e2 p2 =
      .error invalidCredentialsError := by
    simp [login, hf2, hp2, h2, h3]
  exact ⟨ha, hb, ha.trans hb.symm, rfl⟩

/-- Witness for C7: an unknown email and a known email with a wrong
password both yield the invalid-credentials error on a concrete store. -/
theorem c7_witness :
    login (fun _ => true) "s3cret" 0 10 [sampleUser] "none@mail.com"
      "123456" = .error invalidCredentialsError ∧
    login (fun _ => true) "s3cret" 0 10 [sampleUser] "lucas@mail.com"
      "wrong" = .error invalidCredentialsError := by
  have h := c7_uniform_invalid_credentials (fun _ => true) "s3cret" 0 10
    [sampleUser] "none@mail.com" "123456" "lucas@mail.com" "wrong"
    sampleUser rfl (by decide) rfl (by decide) (by decide) (by decide)
    (by decide)
  exact ⟨h.1, h.2.1⟩

/-- C10: the auth guard recognizes a credential only behind the exact,
case-sensitive Bearer-plus-space scheme: whenever the authorization
header is absent or does not start with that exact text, the guard fails
with the 401 missing-token error, and the outcome does not depend on the
token verifier, so verification is never attempted. -/
theorem c10_bearer_scheme_required
    (verifyTok verifyTok2 : String → Option AuthedUser)
    (header : Option String)
    (h : strStartsWith (header.getD "") "Bearer " = false) :
    auth verifyTok header = .error missingTokenError ∧
    auth verifyTok header = auth verifyTok2 header := by
  constructor
  · simp [auth, h]
  · simp [auth, h]

/-- Witness for C10: a lowercase scheme and an absent header are both
rejected as missing credentials, independently of the verifier. -/
theorem c10_witness :
    auth (fun _ => some { id := "u", email := "e" }) (some "bearer abc") =
      .error missingTokenError ∧
    auth (fun _ => some { id := "u", email := "e" }) none =
      .error missingTokenError ∧
    auth (fun t => some { id := t, email := "e" }) (some "bearer abc") =
      auth (fun _ => none) (some "bearer abc") := by
  refine ⟨?_, ?_, ?_⟩
  · exact (c10_bearer_scheme_required (fun _ => some { id := "u", email := "e" })
      (fun _ => some { id := "u", email := "e" }) (some "bearer abc")
      (by decide)).1
  · exact (c10_bearer_scheme_required (fun _ => some { id := "u", email := "e" })
      (fun _ => some { id := "u", email := "e" }) none (by decide)).1
  · exact (c10_bearer_scheme_required (fun t => some { id := t, email := "e" })
      (fun _ => none) (some "bearer abc") (by decide)).2

end JwtCrudApi
